import Mathlib

/-
  Verification development for the Dr.Jit python front-end core
  (src/python/init.cpp and src/python/switch.cpp).

  The development shallowly embeds the construction/broadcast protocol
  (tp_init_array, array_init_seq, full, arange) and the polymorphic call
  aggregator (switch_impl / dispatch_impl, extract_mask, dr_index_vector)
  as executable Lean functions, and proves the specification claims about
  them.
-/

namespace DrJit

/-! ## Basic enumerations (mirroring VarType / JitBackend / shape sentinels) -/

/-- Scalar element kinds, mirroring the `VarType` enumeration as used by the
core (`Bool`, `Float16/32/64`, `Int32/UInt32/Int64/UInt64`, `Pointer`). -/
inductive VarTy where
  | vbool
  | vint32
  | vuint32
  | vint64
  | vuint64
  | vfloat16
  | vfloat32
  | vfloat64
  | vpointer
deriving DecidableEq, Repr

/-- JIT backends, mirroring `JitBackend`.  `bnone` models `JitBackend::None`
(a scalar, non-traced type); `binvalid` models `JitBackend::Invalid` as used
by the host-import meta comparison in `tp_init_array`. -/
inductive JitBk where
  | bnone
  | binvalid
  | bcuda
  | bllvm
deriving DecidableEq, Repr

/-- One entry of a type's shape array: a fixed extent, or the
`DRJIT_DYNAMIC` sentinel. -/
inductive Extent where
  | fixed (n : Nat)
  | dyn
deriving DecidableEq, Repr

/-- The metadata record `ArrayMeta` compared field-by-field by `operator==`
in `tp_init_array` (backend, scalar type, ndim, shape, structural flags). -/
structure ArrayMeta where
  backend : JitBk
  ty : VarTy
  ndim : Nat
  shape : List Extent
  isVector : Bool
  isComplex : Bool
  isQuaternion : Bool
  isMatrix : Bool
  isTensor : Bool
  isClass : Bool
deriving DecidableEq, Repr

/-- Capability flags of an `ArraySupplement`: whether the function pointers
`cast`, `init_data`, `data`, `init_const`, `init_counter` are non-null. -/
structure Caps where
  hasCast : Bool
  hasInitData : Bool
  hasData : Bool
  hasInitConst : Bool
  hasInitCounter : Bool
deriving DecidableEq, Repr

/-- A host-language type as seen by the construction dispatcher: a Dr.Jit
array type (its metadata, capabilities and `value` element type), one of the
plain scalar types (`int`, `float`, `bool`), a `DRJIT_STRUCT`-annotated
record type with a named-field-to-type mapping, or an unsupported type. -/
inductive DType where
  | arr (m : ArrayMeta) (c : Caps) (value : DType)
  | pyInt
  | pyFloat
  | pyBool
  | dstruct (fields : List (String × DType))
  | other

/-- A host-language value: plain scalars, a Dr.Jit array instance (its
slots), a record instance (named fields), or `None`/uninitialized. -/
inductive PVal where
  | pint (n : Int)
  | pfloat (q : ℚ)
  | pbool (b : Bool)
  | parr (slots : List PVal)
  | pobj (fields : List (String × PVal))
  | pnone

/-- Type-object identity comparison (`arg_tp == self_tp` and friends):
structural equality of the type descriptions. -/
def DType.beq : DType → DType → Bool
  | .arr m c v, .arr m' c' v' => m == m' && c == c' && DType.beq v v'
  | .pyInt, .pyInt => true
  | .pyFloat, .pyFloat => true
  | .pyBool, .pyBool => true
  | .dstruct fs, .dstruct fs' => go fs fs'
  | .other, .other => true
  | _, _ => false
where go : List (String × DType) → List (String × DType) → Bool
  | [], [] => true
  | (k, v) :: r, (k', v') :: r' => k == k' && DType.beq v v' && go r r'
  | _, _ => false

instance : BEq DType := ⟨DType.beq⟩

/-- Leading shape entry of a metadata record (`s.shape[0]`). -/
def shape0 (m : ArrayMeta) : Extent := m.shape.headD (Extent.fixed 1)

/-- Sequential effectful map over a list (the loops that stop at the first
failing element in init.cpp), with `Except` as the effect. -/
def exMapM {α β : Type} (f : α → Except String β) : List α → Except String (List β)
  | [] => .ok []
  | x :: r => do
      let y ← f x
      let ys ← exMapM f r
      .ok (y :: ys)

end DrJit

namespace DrJit

/-! ## Construction dispatcher: tp_init_array single-argument path
    (init.cpp lines 41-104) -/

/-- The `while (cur_tp)` walk of init.cpp lines 85-92: starting from a type
in the target's element-type chain, test whether the argument type equals
that type or any type further down the chain.  The chain ends when the
current type is not an array type (its supplement `value` pointer is null
there). -/
def chainContains (argTp : DType) : DType → Bool
  | .arr m c v => argTp == DType.arr m c v || chainContains argTp v
  | t => argTp == t

/-- Condition of init.cpp line 81: both the target and the argument are
one-dimensional with a dynamic leading extent.  Note that, as written, the
code does not consult either type's JIT backend here. -/
def bothDyn1D (m ma : ArrayMeta) : Bool :=
  m.ndim == 1 && ma.ndim == 1 && shape0 m == Extent.dyn && shape0 ma == Extent.dyn

/-- The `try_sequence_import` flag after init.cpp lines 80-93, for a Dr.Jit
array argument that was neither copied, cast, nor host-imported. -/
def trySeqImport (s a : DType) : Bool :=
  match s, a with
  | .arr m _ v, .arr ma _ _ =>
      if bothDyn1D m ma then false
      else !chainContains a v
  | _, _ => true

/-- The spec's reading of the refusal condition in claim C3, with the
explicit "JIT arrays" qualifier: both types 1-D, dynamically sized, and
JIT-backed (backend not `None`). -/
def specCondBothDynJit (s a : DType) : Bool :=
  match s, a with
  | .arr m _ _, .arr ma _ _ =>
      !(m.backend == JitBk.bnone) && !(ma.backend == JitBk.bnone) && bothDyn1D m ma
  | _, _ => false

/-- The source type hits the target's transitive element-type chain
(condition (b) of claim C3): the walk of init.cpp lines 85-92 starting at
`s.value`. -/
def valueChainHit (s a : DType) : Bool :=
  match s with
  | .arr _ _ v => chainContains a v
  | _ => false

/-- The construction path classes of tp_init_array's single-argument case. -/
inductive InitPath where
  | copy
  | cast
  | hostImport
  | seqImport
  | broadcast
deriving DecidableEq, Repr

/-- Path selection of tp_init_array for a single Dr.Jit-array argument
(init.cpp lines 46-99): same type means copy; a meta match modulo the
scalar type with a cast primitive means cast; a meta match against the
host-side variant with bulk-import support means host import; otherwise
sequence import is attempted exactly when `try_sequence_import` remained
set, else scalar broadcast. -/
def singleArgKind (s a : DType) : InitPath :=
  if s == a then .copy
  else
    match s, a with
    | .arr m c v, .arr ma ca va =>
        if ({ ma with ty := m.ty } : ArrayMeta) == m && c.hasCast then .cast
        else if ({ m with backend := JitBk.binvalid, isVector := true } : ArrayMeta) == ma
                && c.hasInitData && ca.hasData then .hostImport
        else if trySeqImport (.arr m c v) (.arr ma ca va) then .seqImport
        else .broadcast
    | _, _ => .seqImport

/-! ## Scalar broadcast fill (init.cpp lines 101-172) -/

/-- The component type used to construct the broadcast element (init.cpp
lines 107-110): the target's `value` type, except that matrices descend one
more level to the matrix scalar component. -/
def broadcastElemType (s : DType) : DType :=
  match s with
  | .arr m _ v =>
      if m.isMatrix then (match v with | .arr _ _ vv => vv | t => t) else v
  | t => t

/-- The structural replication cases of init.cpp lines 146-170, applied to
a zero-initialized instance of `size` slots: complex targets set slot 0 to
the element and slot 1 to zero; quaternions set slots 0-2 to zero and slot
3 to the element; matrices set the diagonal to the element and everything
else to zero; anything else sets every slot to the element. -/
def structuralFill (m : ArrayMeta) (element : PVal) (size : Nat) : PVal :=
  if m.isComplex then .parr [element, .pfloat 0]
  else if m.isQuaternion then .parr [.pfloat 0, .pfloat 0, .pfloat 0, element]
  else if m.isMatrix then
    .parr ((List.range size).map (fun i =>
      .parr ((List.range size).map (fun j => if i == j then element else .pfloat 0))))
  else .parr (List.replicate size element)

/-- The scalar-broadcast tail of tp_init_array (init.cpp lines 101-172),
given the already-constructed element: a fixed leading extent of zero is
rejected before anything else; a dynamic leading extent uses a single
constant-broadcast call when available and otherwise falls back to size 1;
then the structural replication above runs. -/
def broadcastFill (m : ArrayMeta) (c : Caps) (element : PVal) : Except String PVal :=
  match shape0 m with
  | .fixed 0 => .error "Input has the wrong size (expected 0 elements, got 1)."
  | .fixed n => .ok (structuralFill m element n)
  | .dyn =>
      if c.hasInitConst then .ok (.parr [element])
      else .ok (structuralFill m element 1)

/-! ## Sequence importer: array_init_seq (init.cpp lines 181-291) -/

/-- Scalar conversion of one source element to the target's native scalar
representation in the bulk staging loop (init.cpp lines 238-264; the
`default:` case of the `VarType` switch fails).  Matching kinds convert;
integers widen to floating point; everything else fails. -/
def toVar (vt : VarTy) (v : PVal) : Option PVal :=
  match vt, v with
  | .vbool, .pbool b => some (.pbool b)
  | .vint32, .pint n => some (.pint n)
  | .vuint32, .pint n => some (.pint n)
  | .vint64, .pint n => some (.pint n)
  | .vuint64, .pint n => some (.pint n)
  | .vfloat32, .pfloat q => some (.pfloat q)
  | .vfloat64, .pfloat q => some (.pfloat q)
  | .vfloat32, .pint n => some (.pfloat (n : ℚ))
  | .vfloat64, .pint n => some (.pfloat (n : ℚ))
  | _, _ => none

/-- Conversion of every element of the staging buffer; the C++ loop stops at
the first failure, and the whole import fails if any element fails. -/
def convAll (vt : VarTy) : List PVal → Option (List PVal)
  | [] => some []
  | x :: r =>
      match toVar vt x, convAll vt r with
      | some y, some ys => some (y :: ys)
      | _, _ => none

/-- The input presented to array_init_seq: something that is neither
indexable nor iterable, an iterable without random access (materialized
into a list first, init.cpp lines 197-215), or an indexable sequence. -/
inductive SeqIn where
  | noSeq
  | iterOnly (l : List PVal)
  | seqList (l : List PVal)

/-- array_init_seq on an indexable sequence (init.cpp lines 217-291):
validate the length against a fixed leading extent, use a single constant
broadcast for one-element sequences when available, bulk-import through a
staging buffer for 1-D leaves with bulk support, else per-element
assignment on a zeroed or dynamically sized instance.  `.ok none` encodes
the `return false` (not-a-sequence) outcome of the caller protocol. -/
def arrayInitSeqList (m : ArrayMeta) (c : Caps) (l : List PVal) :
    Except String (Option PVal) :=
  let size := l.length
  if shape0 m != Extent.dyn && shape0 m != Extent.fixed size then
    .error "Input has the wrong size."
  else if size == 1 && c.hasInitConst then
    .ok (some (.parr [l.headD .pnone]))
  else if m.ndim == 1 && c.hasInitData then
    match convAll m.ty l with
    | some conv => .ok (some (.parr conv))
    | none => .error "Could not construct from sequence (invalid type in input)."
  else
    .ok (some (.parr l))

/-- array_init_seq entry (init.cpp lines 181-215): inputs with no length or
item access but with an iterator are materialized and re-tried once; inputs
with neither capability report `false`. -/
def arrayInitSeq (m : ArrayMeta) (c : Caps) (input : SeqIn) :
    Except String (Option PVal) :=
  match input with
  | .noSeq => .ok none
  | .iterOnly l => arrayInitSeqList m c l
  | .seqList l => arrayInitSeqList m c l

end DrJit

namespace DrJit

/-! ## Structured generators: full (init.cpp lines 377-482) -/

/-- Python `int(x)` truncation of a rational toward zero. -/
def ratTrunc (q : ℚ) : Int := if 0 ≤ q then ⌊q⌋ else -⌊-q⌋

/-- The plain-scalar branch of `full` (init.cpp lines 453-457):
`dtype(value)` for `int`, `float` and `bool` targets, or the kind's zero
default when no value is supplied. -/
def pyScalarInit (d : DType) (value : Option PVal) : Except String PVal :=
  match d, value with
  | .pyInt, none => .ok (.pint 0)
  | .pyFloat, none => .ok (.pfloat 0)
  | .pyBool, none => .ok (.pbool false)
  | .pyInt, some v =>
      match v with
      | .pint n => .ok (.pint n)
      | .pfloat q => .ok (.pint (ratTrunc q))
      | .pbool b => .ok (.pint (if b then 1 else 0))
      | _ => .error "int(): unsupported argument"
  | .pyFloat, some v =>
      match v with
      | .pint n => .ok (.pfloat (n : ℚ))
      | .pfloat q => .ok (.pfloat q)
      | .pbool b => .ok (.pfloat (if b then 1 else 0))
      | _ => .error "float(): unsupported argument"
  | .pyBool, some v =>
      match v with
      | .pint n => .ok (.pbool (decide (n ≠ 0)))
      | .pfloat q => .ok (.pbool (decide (q ≠ 0)))
      | .pbool b => .ok (.pbool b)
      | _ => .error "bool(): unsupported argument"
  | _, _ => .error "not a plain scalar dtype"

/-- The Bool/int fix-up preceding the constant broadcast
(init.cpp lines 424-425): an integer value destined for a boolean array is
replaced by its truth value. -/
def boolFix (vt : VarTy) (v : PVal) : PVal :=
  match vt, v with
  | .vbool, .pint n => .pbool (decide (n ≠ 0))
  | _, v' => v'

/-- The shape compatibility loop of `full` (init.cpp lines 411-415): each
declared extent is either dynamic or equal to the requested one. -/
def shapeCompat (ms : List Extent) (shape : List Nat) : Bool :=
  (ms.zip shape).all (fun p => p.1 == Extent.dyn || p.1 == Extent.fixed p.2)

/-- Shape inference of the size-based `full` overload (init.cpp lines
385-404): declared fixed extents are kept; a dynamic extent becomes the
requested size on the innermost axis and 1 elsewhere; non-array dtypes get
a one-axis shape. -/
def deriveShape (d : DType) (size : Nat) : List Nat :=
  match d with
  | .arr m _ _ =>
      (List.range m.ndim).map (fun i =>
        match m.shape.getD i Extent.dyn with
        | .fixed k => k
        | .dyn => if i == m.ndim - 1 then size else 1)
  | _ => [size]

/-- The bit-pattern zero payload of one leaf slot (`nb_inst_zero`). -/
def zeroLeaf (vt : VarTy) : PVal :=
  match vt with
  | .vbool => .pbool false
  | .vfloat16 => .pfloat 0
  | .vfloat32 => .pfloat 0
  | .vfloat64 => .pfloat 0
  | _ => .pint 0

/-- `is_drjit_type`. -/
def isDrjitType (d : DType) : Bool :=
  match d with
  | .arr _ _ _ => true
  | _ => false

/-- The recursive core of `full` (init.cpp lines 407-482), with an explicit
recursion budget (the C++ recursion is bounded by the nesting depth of the
dtype; every theorem below conditions on a successful `.ok` outcome).
After validating the requested shape against the declared one: a leaf with
constant-broadcast support fills all `shape[0]` slots in one call; an
absent value on a one-dimensional array returns the dynamically sized or
zero-initialized storage as is; otherwise the element is built recursively
(once when a value is present, per slot otherwise) and assigned to every
slot; plain scalar dtypes convert the value; `DRJIT_STRUCT` record types
apply `full` to each field independently, re-deriving a field-local shape
when the field is itself an array and one axis remains. -/
def fullF : Nat → DType → Option PVal → List Nat → Except String PVal
  | 0, _, _, _ => .error "recursion limit exceeded"
  | fuel+1, d, value, shape =>
    match d with
    | .arr m c v =>
        if !(m.ndim == shape.length) || !shapeCompat m.shape shape then
          .error "The provided 'shape' and 'dtype' parameters are incompatible."
        else
          match shape with
          | [] => .error "The provided 'shape' and 'dtype' parameters are incompatible."
          | n :: rest =>
            if c.hasInitConst && value.isSome then
              .ok (.parr (List.replicate n (boolFix m.ty (value.getD .pnone))))
            else if value.isNone && m.ndim == 1 then
              .ok (.parr (List.replicate n
                (if shape0 m == Extent.dyn then PVal.pnone else zeroLeaf m.ty)))
            else
              match value with
              | some _ => do
                  let o ← fullF fuel v value rest
                  .ok (.parr (List.replicate n o))
              | none => do
                  let os ← exMapM (fun _ => fullF fuel v none rest) (List.range n)
                  .ok (.parr os)
    | .pyInt => pyScalarInit d value
    | .pyFloat => pyScalarInit d value
    | .pyBool => pyScalarInit d value
    | .dstruct fields =>
        match exMapM (fun p =>
          match (if isDrjitType p.2 && shape.length == 1 then
                   fullF fuel p.2 value (deriveShape p.2 (shape.headD 1))
                 else
                   fullF fuel p.2 value shape) with
          | .ok entry => .ok (p.1, entry)
          | .error e => .error e) fields with
        | .ok fvals => .ok (.pobj fvals)
        | .error e => .error e
    | .other => .error "Unsupported dtype."

/-- The size-based overload `full(dtype, value, size)`
(init.cpp lines 385-404). -/
def fullSize (fuel : Nat) (d : DType) (value : Option PVal) (size : Nat) :
    Except String PVal :=
  fullF fuel d value (deriveShape d size)

/-- "Every lane reads back as `v`": each scalar slot reachable in the
constructed value equals `v`, through arrays and record fields alike. -/
inductive IsFullOf (v : PVal) : PVal → Prop
  | scalar : IsFullOf v v
  | arr {l : List PVal} : (∀ x ∈ l, IsFullOf v x) → IsFullOf v (.parr l)
  | obj {l : List (String × PVal)} : (∀ x ∈ l, IsFullOf v x.2) → IsFullOf v (.pobj l)

/-- The fill value's scalar kind agrees with one leaf `VarType`. -/
def varMatches (vt : VarTy) (v : PVal) : Bool :=
  match vt, v with
  | .vbool, .pbool _ => true
  | .vint32, .pint _ => true
  | .vuint32, .pint _ => true
  | .vint64, .pint _ => true
  | .vuint64, .pint _ => true
  | .vfloat16, .pfloat _ => true
  | .vfloat32, .pfloat _ => true
  | .vfloat64, .pfloat _ => true
  | _, _ => false

/-- The fill value's scalar kind agrees with every leaf of the dtype, so no
implicit scalar conversion applies anywhere during `full`. -/
def kindsMatch : DType → PVal → Bool
  | .arr m _ v, x => varMatches m.ty x && kindsMatch v x
  | .pyInt, x => (match x with | .pint _ => true | _ => false)
  | .pyFloat, x => (match x with | .pfloat _ => true | _ => false)
  | .pyBool, x => (match x with | .pbool _ => true | _ => false)
  | .dstruct fields, x => go fields x
  | .other, _ => false
where go : List (String × DType) → PVal → Bool
  | [], _ => true
  | p :: r, x => kindsMatch p.2 x && go r x

/-! ## Structured generators: arange (init.cpp lines 484-520) -/

/-- The lane count of `arange` (init.cpp line 497), truncating signed
division exactly as C++ `/` computes it:
`(end - start + step - (step > 0 ? 1 : -1)) / step`. -/
def arangeCount (start stop step : Int) : Int :=
  (stop - start + step - (if 0 < step then 1 else -1)).tdiv step

/-- The mathematical ceiling `⌈(stop - start) / step⌉` for `step ≠ 0`,
the rounding mode claim C7 ascribes to the count formula. -/
def ceilCount (start stop step : Int) : Int :=
  if 0 < step then (stop - start + step - 1).fdiv step
  else (start - stop + (-step) - 1).fdiv (-step)

/-- `arange` (init.cpp lines 484-520) for a dtype with metadata `m`, where
`counterHasInit` states whether the matching unsigned 32-bit counter type
provides `init_counter`: validate the dtype, compute the count, return an
empty value for count 0, an error for a negative count, and otherwise the
counter lanes fused as `counter * step + start` (returned directly when
`start = 0` and `step = 1`). -/
def arange (m : ArrayMeta) (counterHasInit : Bool) (start stop step : Int) :
    Except String (List Int) :=
  if !(m.ndim == 1 && shape0 m == Extent.dyn) then
    .error "drjit.arange(): unsupported dtype -- must be a dynamically sized 1D array."
  else if m.ty == VarTy.vbool || m.ty == VarTy.vpointer then
    .error "drjit.arange(): unsupported dtype -- must be an arithmetic type."
  else if !counterHasInit then
    .error "drjit.arange(): unsupported dtype."
  else
    let size := arangeCount start stop step
    if size == 0 then .ok []
    else if size < 0 then .error "drjit.arange(): size cannot be negative."
    else
      let counter := (List.range size.toNat).map Int.ofNat
      if start == 0 && step == 1 then .ok counter
      else .ok (counter.map (fun i => i * step + start))

end DrJit

namespace DrJit

/-! ## Call aggregator: mask extraction (switch.cpp lines 25-56) -/

/-- One call argument: its host type and its value. -/
structure TVal where
  ty : DType
  v : PVal

/-- Is the trailing positional argument recognized as a mask (switch.cpp
lines 39-47): a Dr.Jit type with a JIT backend, one dimension and boolean
elements, or the plain Python `bool` type. -/
def isMaskType (t : DType) : Bool :=
  match t with
  | .arr m _ _ => !(m.backend == JitBk.bnone) && m.ndim == 1 && m.ty == VarTy.vbool
  | .pyBool => true
  | _ => false

/-- `mask.type()(true)`: the constant all-true value of the mask's own type.
For `bool` this is `True`; for a 1-D dynamically sized JIT mask type the
one-argument constructor broadcasts `True` through a single constant
broadcast (tp_init_array dynamic path), yielding a one-slot constant. -/
def trueOf (t : DType) : TVal :=
  match t with
  | .pyBool => ⟨.pyBool, .pbool true⟩
  | .arr m c v => ⟨.arr m c v, .parr [.pbool true]⟩
  | t' => ⟨t', .pnone⟩

/-- Keyword-table update `nb::del(kwargs[k]); kwargs[k] = v`. -/
def kwSet (kw : List (String × TVal)) (k : String) (v : TVal) :
    List (String × TVal) :=
  (kw.filter (fun p => p.1 != k)) ++ [(k, v)]

/-- extract_mask (switch.cpp lines 25-56): prefer the `active` keyword; its
slot is replaced by an all-true value of the same type.  Otherwise, when
the last positional argument has a mask type, it is removed and an all-true
value of its type is appended in its place.  Returns the extracted mask and
the rewritten argument lists. -/
def extract_mask (args : List TVal) (kwargs : List (String × TVal)) :
    Option TVal × List TVal × List (String × TVal) :=
  match kwargs.lookup "active" with
  | some mv => (some mv, args, kwSet kwargs "active" (trueOf mv.ty))
  | none =>
      match args.getLast? with
      | some last =>
          if isMaskType last.ty then
            (some last, args.dropLast ++ [trueOf last.ty], kwargs)
          else (none, args, kwargs)
      | none => (none, args, kwargs)

/-! ## Call aggregator: scalar fast path (switch.cpp lines 80-91) -/

/-- The scalar fast path of switch_impl, entered when the selector is a
plain integer, after mask extraction: a supplied mask must cast to a plain
scalar boolean; a false mask returns `None` (encoded `none`) and invokes
nothing; otherwise the selected callable is invoked directly.  The second
component records the indices of the callables invoked. -/
def switchFast {α β : Type} (idx : Nat) (callables : List (α → β)) (args : α)
    (mask : Option PVal) : Except String (Option β × List Nat) :=
  let run : Except String (Option β × List Nat) :=
    match callables[idx]? with
    | some f => .ok (some (f args), [idx])
    | none => .error "IndexError"
  match mask with
  | some mv =>
      match mv with
      | .pbool b => if b then run else .ok (none, [])
      | _ => .error "the provided 'mask' argument must be scalar if 'index' is scalar"
  | none => run

/-! ## Call aggregator: Call-State lifetime and handle accounting
    (switch.cpp lines 15-22 and 126-145 / 208-227) -/

/-- Trace handles are opaque identifiers. -/
abbrev Handle := Nat

/-- Lifecycle events of one switch/dispatch general-path invocation:
Call-State allocation and deletion, per-group callback re-entry, and
trace-handle reference deposit into / release from the owning
`dr_index_vector`. -/
inductive Ev where
  | createState
  | destroyState
  | invoke (g : Nat)
  | acquire (h : Handle)
  | release (h : Handle)
deriving DecidableEq, Repr

/-- One behavior of the external `ad_call` primitive: which target groups it
re-enters, which owned result handles it deposits into the output index
vector `rv_i`, and whether the call completed synchronously (`done = true`)
or was recorded for deferred completion (`done = false`). -/
structure BackendRun where
  groups : List Nat
  rvHandles : List Handle
  done : Bool

/-- Event trace of the general (traced) path of switch_impl (switch.cpp
lines 126-145) and dispatch_impl (lines 208-227), whose lifecycle structure
is identical, under a non-exceptional execution: `new State`; `ad_call`
re-enters the callback once per distinct active group and deposits one
owned reference per result handle into `rv_i`; `update_indices` rebuilds
the result; `cleanup(state)` runs synchronously iff `done`; the
`dr_index_vector` destructor (switch.cpp lines 18-21) releases each
deposited reference at scope exit; and the deferred cleanup callback runs
later iff `!done`.

Modelled from the spec: `ad_call`, `collect_indices` and `update_indices`
live outside the shown sources.  Per spec sections 4.4 and 6, `ad_call`
deposits one owned reference per result handle into the output Index
Vector and invokes the supplied cleanup callback later exactly when it did
not report synchronous completion; the argument vector `args_i` (a plain
`dr_vector`) holds borrowed, not owned, handles. -/
def generalTrace (run : BackendRun) : List Ev :=
  [Ev.createState]
    ++ run.groups.map Ev.invoke
    ++ run.rvHandles.map Ev.acquire
    ++ (if run.done then [Ev.destroyState] else [])
    ++ run.rvHandles.map Ev.release
    ++ (if run.done then [] else [Ev.destroyState])

/-- Event trace when result reconstruction (`update_indices`, switch.cpp
line 140) throws after `ad_call` returned: C++ unwinding still runs the
`dr_index_vector` destructor, releasing every deposited reference, and the
deferred cleanup callback still runs iff the call was recorded. -/
def generalTraceExcAfter (run : BackendRun) : List Ev :=
  [Ev.createState]
    ++ run.groups.map Ev.invoke
    ++ run.rvHandles.map Ev.acquire
    ++ run.rvHandles.map Ev.release
    ++ (if run.done then [] else [Ev.destroyState])

/-- Event trace when flattening the arguments (`collect_indices`, switch.cpp
line 132) throws before `ad_call` runs: `rv_i` is destroyed while still
empty; no reference was deposited. -/
def generalTraceExcBefore : List Ev := [Ev.createState]

/-! ## Call aggregator: per-group result compatibility and merging
    (switch.cpp lines 107-124 and 140) -/

/-- The observable outcome of one per-group callback re-entry: the
structural signature (composite shape/type) of the result the callable
returned, as compared by `check_compatibility`.

Modelled from the spec: `check_compatibility` lives outside the shown
sources; per spec section 4.4 step 5 it compares the composite shape/type
of the group results and a mismatch is fatal. -/
structure GroupOutcome where
  sig : Nat
deriving DecidableEq, Repr

/-- The sequential callback protocol of switch.cpp lines 107-124:
`state.rv_o` starts invalid; every re-entry after the first checks its
result's compatibility against the stored one and then stores its own.
Returns the signature finally stored in `state.rv_o`. -/
def runCallbacks : List GroupOutcome → Option Nat → Except String (Option Nat)
  | [], acc => .ok acc
  | g :: rest, acc =>
      match acc with
      | none => runCallbacks rest (some g.sig)
      | some s =>
          if g.sig == s then runCallbacks rest (some g.sig)
          else .error "Incompatible results."

/-- The merged final result (switch.cpp line 140): the structure of the
last stored result, re-populated from the backend-provided output index
vector `rv_i`. -/
def mergedResult (gs : List GroupOutcome) (rv : List Handle) :
    Except String (Option (Nat × List Handle)) :=
  match runCallbacks gs none with
  | .ok none => .ok none
  | .ok (some s) => .ok (some (s, rv))
  | .error e => .error e

end DrJit

namespace DrJit

/-! ## Concrete fixtures used by witnesses and counterexamples -/

/-- Metadata of a plain (non-structural) array type. -/
def mkMeta (bk : JitBk) (t : VarTy) (sh : List Extent) (nd : Nat) : ArrayMeta :=
  { backend := bk, ty := t, ndim := nd, shape := sh,
    isVector := false, isComplex := false, isQuaternion := false,
    isMatrix := false, isTensor := false, isClass := false }

/-- No capability function pointers present. -/
def capsNone : Caps := ⟨false, false, false, false, false⟩

/-- Only `init_const` present. -/
def capsConst : Caps := ⟨false, false, false, true, false⟩

/-- A scalar-backend (non-JIT) 1-D dynamically sized float array type. -/
def tgtScalarDynF : DType := .arr (mkMeta JitBk.bnone VarTy.vfloat32 [Extent.dyn] 1) capsNone .pyFloat

/-- A scalar-backend (non-JIT) 1-D dynamically sized int array type. -/
def argScalarDynI : DType := .arr (mkMeta JitBk.bnone VarTy.vint32 [Extent.dyn] 1) capsNone .pyInt

/-- A fixed-size-3 float array type. -/
def tgtFix3F : DType := .arr (mkMeta JitBk.bnone VarTy.vfloat32 [Extent.fixed 3] 1) capsNone .pyFloat

/-- A JIT-backed 1-D dynamically sized int array type with constant
broadcast support. -/
def tgtJitDynI : DType := .arr (mkMeta JitBk.bcuda VarTy.vint32 [Extent.dyn] 1) capsConst .pyInt

end DrJit

namespace DrJit

/-- Counting an element that a map can never produce yields zero. -/
theorem count_map_ne {α β : Type} [DecidableEq β] (l : List α) (f : α → β) (b : β)
    (hb : ∀ a, f a ≠ b) : (l.map f).count b = 0 := by
  rw [List.count_eq_zero]
  intro hmem
  rcases List.mem_map.mp hmem with ⟨a, _, ha⟩
  exact hb a ha

/-! ## Claim C1 -/

/-- C1: on the general (traced) path of switch/dispatch, the heap-allocated
Call State is destroyed exactly once for every backend behavior: right
after `ad_call` returns when it reports completion, and only through the
deferred cleanup callback otherwise — never twice, never zero times. -/
theorem claim_c1_call_state_destroyed_once (run : BackendRun) :
    (generalTrace run).count Ev.destroyState = 1 := by
  rcases run with ⟨gs, hs, done⟩
  have h1 : (gs.map Ev.invoke).count Ev.destroyState = 0 :=
    count_map_ne _ _ _ (fun a => by simp)
  have h2 : (hs.map Ev.acquire).count Ev.destroyState = 0 :=
    count_map_ne _ _ _ (fun a => by simp)
  have h3 : (hs.map Ev.release).count Ev.destroyState = 0 :=
    count_map_ne _ _ _ (fun a => by simp)
  cases done <;>
    simp [generalTrace, List.count_append, h1, h2, h3]

/-! ## Claim C2 -/

/-- C2: every trace-handle reference deposited into the owning
`dr_index_vector` is released exactly once, on the normal path, on the
exception path after `ad_call` (unwinding runs the vector's destructor),
and on the exception path before `ad_call` (nothing deposited, nothing
released) — per handle, acquisitions equal releases. -/
theorem claim_c2_handle_refs_released_once (run : BackendRun) (h : Handle) :
    ((generalTrace run).count (Ev.acquire h) = (generalTrace run).count (Ev.release h))
    ∧ ((generalTraceExcAfter run).count (Ev.acquire h) =
        (generalTraceExcAfter run).count (Ev.release h))
    ∧ (generalTraceExcBefore.count (Ev.acquire h) =
        generalTraceExcBefore.count (Ev.release h)) := by
  rcases run with ⟨gs, hs, done⟩
  have hacq : ∀ l : List Handle, (l.map Ev.acquire).count (Ev.acquire h) = l.count h :=
    fun l => List.count_map_of_injective l Ev.acquire (fun a b hab => by
      cases hab; rfl) h
  have hrel : ∀ l : List Handle, (l.map Ev.release).count (Ev.release h) = l.count h :=
    fun l => List.count_map_of_injective l Ev.release (fun a b hab => by
      cases hab; rfl) h
  have z1 : (gs.map Ev.invoke).count (Ev.acquire h) = 0 :=
    count_map_ne _ _ _ (fun a => by simp)
  have z2 : (gs.map Ev.invoke).count (Ev.release h) = 0 :=
    count_map_ne _ _ _ (fun a => by simp)
  have z3 : (hs.map Ev.release).count (Ev.acquire h) = 0 :=
    count_map_ne _ _ _ (fun a => by simp)
  have z4 : (hs.map Ev.acquire).count (Ev.release h) = 0 :=
    count_map_ne _ _ _ (fun a => by simp)
  refine ⟨?_, ?_, by simp [generalTraceExcBefore]⟩ <;>
    cases done <;>
      simp [generalTrace, generalTraceExcAfter, List.count_append, hacq, hrel,
        z1, z2, z3, z4]

end DrJit

namespace DrJit

/-! ## Claim C6 -/

/-- Unfolding of the callback fold once a first result has been stored:
it succeeds, returning the common signature, exactly when every remaining
group's result matches it. -/
theorem runCallbacks_from_some (gs : List GroupOutcome) (s : Nat) :
    runCallbacks gs (some s) =
      if gs.all (fun g => g.sig == s) then Except.ok (some s)
      else Except.error "Incompatible results." := by
  induction gs generalizing s with
  | nil => simp [runCallbacks]
  | cons g rest ih =>
      simp only [runCallbacks, List.all_cons]
      by_cases hg : g.sig = s
      · simp [hg, ih]
      · simp [hg]

/-- Closed form of the merged result: empty group lists yield the empty
result; otherwise success carries the head group's signature together with
the backend-provided output indices, exactly when all signatures agree. -/
theorem mergedResult_eq (gs : List GroupOutcome) (rv : List Handle) :
    mergedResult gs rv =
      match gs with
      | [] => Except.ok none
      | g :: rest =>
          if rest.all (fun g2 => g2.sig == g.sig) then Except.ok (some (g.sig, rv))
          else Except.error "Incompatible results." := by
  cases gs with
  | nil => simp [mergedResult, runCallbacks]
  | cons g rest =>
      simp only [mergedResult, runCallbacks, runCallbacks_from_some]
      by_cases hall : rest.all (fun g2 => g2.sig == g.sig) = true
      · simp [hall]
      · simp [hall]

/-- C6: the per-group callback checks each result after the first against
the previously recorded one and fails fatally on mismatch — the merge
succeeds exactly when all group results are structurally compatible — and
the merged final result is invariant under any permutation of the
backend-determined group invocation order. -/
theorem claim_c6_compat_checked_and_order_independent
    (gs gs' : List GroupOutcome) (rv : List Handle) (hperm : gs.Perm gs') :
    ((∃ r, mergedResult gs rv = .ok r) ↔ ∀ a ∈ gs, ∀ b ∈ gs, a.sig = b.sig)
    ∧ mergedResult gs rv = mergedResult gs' rv := by
  have hchar : ∀ (l : List GroupOutcome),
      (∃ r, mergedResult l rv = .ok r) ↔ ∀ a ∈ l, ∀ b ∈ l, a.sig = b.sig := by
    intro l
    cases l with
    | nil => simp [mergedResult_eq]
    | cons g rest =>
        rw [mergedResult_eq]
        by_cases hall : rest.all (fun g2 => g2.sig == g.sig) = true
        · simp only [hall, if_true]
          constructor
          · intro _
            have hmem : ∀ x ∈ g :: rest, x.sig = g.sig := by
              intro x hx
              rcases List.mem_cons.mp hx with hx | hx
              · rw [hx]
              · exact beq_iff_eq.mp (List.all_eq_true.mp hall x hx)
            intro a ha b hb
            rw [hmem a ha, hmem b hb]
          · intro _
            exact ⟨some (g.sig, rv), rfl⟩
        · simp only [hall, if_false]
          constructor
          · intro ⟨r, hr⟩
            exact absurd hr (by simp)
          · intro hab
            exfalso
            apply hall
            rw [List.all_eq_true]
            intro x hx
            exact beq_iff_eq.mpr
              (hab x (List.mem_cons_of_mem g hx) g (List.mem_cons_self g rest))
  refine ⟨hchar gs, ?_⟩
  have hiff : (∀ a ∈ gs, ∀ b ∈ gs, a.sig = b.sig) ↔
      (∀ a ∈ gs', ∀ b ∈ gs', a.sig = b.sig) := by
    constructor
    · intro hp a ha b hb
      exact hp a (hperm.mem_iff.mpr ha) b (hperm.mem_iff.mpr hb)
    · intro hp a ha b hb
      exact hp a (hperm.mem_iff.mp ha) b (hperm.mem_iff.mp hb)
  cases gs with
  | nil =>
      have : gs' = [] := List.eq_nil_of_length_eq_zero (by
        simpa using hperm.length_eq.symm)
      rw [this]
  | cons g rest =>
      cases gs' with
      | nil =>
          exact absurd hperm.length_eq (by simp)
      | cons g' rest' =>
          rw [mergedResult_eq, mergedResult_eq]
          by_cases hall : rest.all (fun g2 => g2.sig == g.sig) = true
          · have hcomp : ∀ a ∈ g :: rest, ∀ b ∈ g :: rest, a.sig = b.sig := by
              have := (hchar (g :: rest)).mp
              apply this
              rw [mergedResult_eq]
              exact ⟨some (g.sig, rv), by simp [hall]⟩
            have hcomp' : ∀ a ∈ g' :: rest', ∀ b ∈ g' :: rest', a.sig = b.sig :=
              hiff.mp hcomp
            have hall' : rest'.all (fun g2 => g2.sig == g'.sig) = true := by
              rw [List.all_eq_true]
              intro x hx
              exact beq_iff_eq.mpr (hcomp' x (List.mem_cons_of_mem g' hx) g'
                (List.mem_cons_self g' rest'))
            have hgg : g.sig = g'.sig :=
              hcomp g (List.mem_cons_self g rest)
                g' (hperm.mem_iff.mpr (List.mem_cons_self g' rest'))
            dsimp only
            rw [if_pos hall, if_pos hall', hgg]
          · have hall' : ¬ rest'.all (fun g2 => g2.sig == g'.sig) = true := by
              intro hyes
              apply hall
              have hcomp' : ∀ a ∈ g' :: rest', ∀ b ∈ g' :: rest', a.sig = b.sig := by
                apply (hchar (g' :: rest')).mp
                rw [mergedResult_eq]
                exact ⟨some (g'.sig, rv), by simp [hyes]⟩
              have hcomp : ∀ a ∈ g :: rest, ∀ b ∈ g :: rest, a.sig = b.sig :=
                hiff.mpr hcomp'
              rw [List.all_eq_true]
              intro x hx
              exact beq_iff_eq.mpr (hcomp x (List.mem_cons_of_mem g hx) g
                (List.mem_cons_self g rest))
            simp [hall, hall']
  
/-- Witness for C6 at a concrete permutation: two incompatible groups in
both orders. -/
theorem claim_c6_witness :
    (List.Perm [GroupOutcome.mk 1, GroupOutcome.mk 2]
      [GroupOutcome.mk 2, GroupOutcome.mk 1])
    ∧ (((∃ r, mergedResult [GroupOutcome.mk 1, GroupOutcome.mk 2] [7] = .ok r) ↔
        ∀ a ∈ [GroupOutcome.mk 1, GroupOutcome.mk 2],
          ∀ b ∈ [GroupOutcome.mk 1, GroupOutcome.mk 2], a.sig = b.sig)
      ∧ mergedResult [GroupOutcome.mk 1, GroupOutcome.mk 2] [7] =
          mergedResult [GroupOutcome.mk 2, GroupOutcome.mk 1] [7]) :=
  ⟨by decide, claim_c6_compat_checked_and_order_independent
    [GroupOutcome.mk 1, GroupOutcome.mk 2]
    [GroupOutcome.mk 2, GroupOutcome.mk 1] [7] (by decide)⟩

end DrJit

namespace DrJit

/-! ## Claim C4 -/

/-- C4: the scalar-broadcast fill replicates the constructed element by
structural kind — plain arrays put it in every slot; complex targets put it
in slot 0 with slot 1 zeroed; quaternions zero slots 0-2 and put it in slot
3; matrices put it on the diagonal with zeros elsewhere — and a fixed
leading extent of zero is rejected as a size mismatch before any fill. -/
theorem claim_c4_broadcast_replication (m : ArrayMeta) (c : Caps) (e : PVal) (n : Nat) :
    (shape0 m = Extent.fixed 0 →
      broadcastFill m c e = .error "Input has the wrong size (expected 0 elements, got 1).")
    ∧ (shape0 m = Extent.fixed n → n ≠ 0 → m.isComplex = false → m.isQuaternion = false →
        m.isMatrix = false →
        broadcastFill m c e = .ok (.parr (List.replicate n e)))
    ∧ (shape0 m = Extent.fixed n → n ≠ 0 → m.isComplex = true →
        broadcastFill m c e = .ok (.parr [e, .pfloat 0]))
    ∧ (shape0 m = Extent.fixed n → n ≠ 0 → m.isComplex = false → m.isQuaternion = true →
        broadcastFill m c e = .ok (.parr [.pfloat 0, .pfloat 0, .pfloat 0, e]))
    ∧ (shape0 m = Extent.fixed n → n ≠ 0 → m.isComplex = false → m.isQuaternion = false →
        m.isMatrix = true →
        broadcastFill m c e = .ok (.parr ((List.range n).map (fun i =>
          .parr ((List.range n).map (fun j => if i == j then e else .pfloat 0)))))) := by
  refine ⟨?_, ?_, ?_, ?_, ?_⟩
  · intro h0
    simp [broadcastFill, h0]
  · intro hsh hn hc hq hm
    cases n with
    | zero => exact absurd rfl hn
    | succ k => simp [broadcastFill, hsh, structuralFill, hc, hq, hm]
  · intro hsh hn hc
    cases n with
    | zero => exact absurd rfl hn
    | succ k => simp [broadcastFill, hsh, structuralFill, hc]
  · intro hsh hn hc hq
    cases n with
    | zero => exact absurd rfl hn
    | succ k => simp [broadcastFill, hsh, structuralFill, hc, hq]
  · intro hsh hn hc hq hm
    cases n with
    | zero => exact absurd rfl hn
    | succ k => simp [broadcastFill, hsh, structuralFill, hc, hq, hm]

/-- Witness for C4 on a fixed-size-3 plain float array broadcasting 2.0. -/
theorem claim_c4_witness :
    shape0 (mkMeta JitBk.bnone VarTy.vfloat32 [Extent.fixed 3] 1) = Extent.fixed 3
    ∧ (3 : Nat) ≠ 0
    ∧ broadcastFill (mkMeta JitBk.bnone VarTy.vfloat32 [Extent.fixed 3] 1) capsNone
        (.pfloat 2) = .ok (.parr (List.replicate 3 (.pfloat 2))) :=
  ⟨rfl, by decide,
    (claim_c4_broadcast_replication (mkMeta JitBk.bnone VarTy.vfloat32 [Extent.fixed 3] 1)
      capsNone (.pfloat 2) 3).2.1 rfl (by decide) rfl rfl rfl⟩

/-! ## Claim C5 -/

/-- C5: on the scalar fast path, a supplied mask that is not a plain scalar
boolean is an error; a false mask yields the empty result with no callable
invoked; otherwise the selected callable is invoked directly, exactly once,
on the forwarded arguments. -/
theorem claim_c5_scalar_fast_path {α β : Type} (idx : Nat)
    (callables : List (α → β)) (args : α) (f : α → β) :
    (∀ mv : PVal, (∀ b, mv ≠ PVal.pbool b) →
        switchFast idx callables args (some mv) =
          .error "the provided 'mask' argument must be scalar if 'index' is scalar")
    ∧ (switchFast idx callables args (some (.pbool false)) = .ok (none, []))
    ∧ (callables[idx]? = some f →
        switchFast idx callables args (some (.pbool true)) = .ok (some (f args), [idx])
        ∧ switchFast idx callables args none = .ok (some (f args), [idx])) := by
  refine ⟨?_, ?_, ?_⟩
  · intro mv hmv
    cases mv with
    | pbool b => exact absurd rfl (hmv b)
    | pint n => rfl
    | pfloat q => rfl
    | parr l => rfl
    | pobj l => rfl
    | pnone => rfl
  · rfl
  · intro hf
    constructor <;> simp [switchFast, hf]

/-- Witness for C5: two callables over naturals, selector 1, mask true. -/
theorem claim_c5_witness :
    ([(fun n : Nat => n + 1), (fun n : Nat => n * 2)][1]? = some (fun n : Nat => n * 2))
    ∧ switchFast 1 [(fun n : Nat => n + 1), (fun n : Nat => n * 2)] 3
        (some (.pbool true)) = .ok (some ((fun n : Nat => n * 2) 3), [1])
    ∧ switchFast 1 [(fun n : Nat => n + 1), (fun n : Nat => n * 2)] 3 none
        = .ok (some ((fun n : Nat => n * 2) 3), [1]) := by
  have h := (claim_c5_scalar_fast_path 1 [(fun n : Nat => n + 1), (fun n : Nat => n * 2)]
    3 (fun n : Nat => n * 2)).2.2 rfl
  exact ⟨rfl, h.1, h.2⟩

/-! ## Claim C9 -/

/-- C9: the sequence length is validated against a fixed leading extent
before any element is imported (the size-mismatch error fires for every
element list of the wrong length, whatever its contents); a fixed-size-3
target given two elements fails with that error; a 1-D dynamically sized
target accepts the empty sequence and yields length 0. -/
theorem claim_c9_seq_length_validated (m : ArrayMeta) (c : Caps) (l : List PVal) (k : Nat) :
    (shape0 m = Extent.fixed k → k ≠ l.length →
       arrayInitSeqList m c l = .error "Input has the wrong size.")
    ∧ (arrayInitSeqList (mkMeta JitBk.bnone VarTy.vfloat32 [Extent.fixed 3] 1) capsNone
         [.pfloat 1, .pfloat 2] = .error "Input has the wrong size.")
    ∧ (shape0 m = Extent.dyn → m.ndim = 1 →
       arrayInitSeq m c (SeqIn.seqList []) = .ok (some (.parr []))) := by
  refine ⟨?_, by rfl, ?_⟩
  · intro hsh hk
    have hne : (Extent.fixed k != Extent.dyn) = true := by rfl
    have hne2 : (Extent.fixed k != Extent.fixed l.length) = true := by
      simp [bne_iff_ne]
      exact hk
    simp [arrayInitSeqList, hsh, hne, hne2]
  · intro hdyn hnd
    cases hc : c.hasInitConst <;> cases hd : c.hasInitData <;>
      simp [arrayInitSeq, arrayInitSeqList, hdyn, hnd, hc, hd, convAll]

/-- Witness for C9: the dynamic empty-sequence case at a concrete dtype. -/
theorem claim_c9_witness :
    shape0 (mkMeta JitBk.bnone VarTy.vfloat32 [Extent.dyn] 1) = Extent.dyn
    ∧ arrayInitSeq (mkMeta JitBk.bnone VarTy.vfloat32 [Extent.dyn] 1) capsNone
        (SeqIn.seqList []) = .ok (some (.parr [])) :=
  ⟨rfl, (claim_c9_seq_length_validated (mkMeta JitBk.bnone VarTy.vfloat32 [Extent.dyn] 1)
    capsNone [] 0).2.2 rfl rfl⟩

end DrJit

namespace DrJit

/-! ## Claim C10 -/

/-- The constructed all-true stand-in keeps the mask's type. -/
theorem trueOf_ty (t : DType) : (trueOf t).ty = t := by
  cases t <;> rfl

/-- After `kwSet`, looking up the rewritten key yields the new value. -/
theorem kwSet_lookup_self (kw : List (String × TVal)) (k : String) (v : TVal) :
    (kwSet kw k v).lookup k = some v := by
  induction kw with
  | nil => simp [kwSet, List.lookup]
  | cons p r ih =>
      by_cases hp : p.1 = k
      · simpa [kwSet, hp] using ih
      · have : (p.1 != k) = true := by simp [bne_iff_ne, hp]
        simp only [kwSet, List.filter_cons, this, if_true, List.cons_append,
          List.lookup]
        have hk : (k == p.1) = false := by
          simp [beq_eq_false_iff_ne]
          exact fun he => hp he.symm
        rw [hk]
        simpa [kwSet] using ih

/-- After `kwSet`, every other key looks up to what it did before. -/
theorem kwSet_lookup_other (kw : List (String × TVal)) (k k2 : String) (v : TVal)
    (hne : k2 ≠ k) : (kwSet kw k v).lookup k2 = kw.lookup k2 := by
  induction kw with
  | nil =>
      have : (k2 == k) = false := by simp [beq_eq_false_iff_ne, hne]
      simp [kwSet, List.lookup, this]
  | cons p r ih =>
      by_cases hp : p.1 = k
      · have hk2 : (k2 == p.1) = false := by
          simp [beq_eq_false_iff_ne]
          rw [hp]
          exact hne
        have : (p.1 != k) = false := by simp [bne_iff_ne, hp]
        simp only [kwSet, List.filter_cons, this, if_false, List.lookup, hk2]
        simpa [kwSet] using ih
      · have : (p.1 != k) = true := by simp [bne_iff_ne, hp]
        simp only [kwSet, List.filter_cons, this, if_true, List.cons_append,
          List.lookup]
        cases hk2 : (k2 == p.1) with
        | true => rfl
        | false => simpa [kwSet] using ih

/-- C10: whenever a mask is found — as the `active` keyword or as a
trailing positional of mask type — the captured argument lists never
contain the original mask: its keyword slot, or its (last) positional slot,
holds a constant all-true value of the same type, and every other argument
is passed through unchanged. -/
theorem claim_c10_mask_never_forwarded (args : List TVal)
    (kwargs : List (String × TVal)) :
    (∀ mv : TVal, kwargs.lookup "active" = some mv →
        extract_mask args kwargs = (some mv, args, kwSet kwargs "active" (trueOf mv.ty))
        ∧ (kwSet kwargs "active" (trueOf mv.ty)).lookup "active" = some (trueOf mv.ty)
        ∧ (∀ k2 : String, k2 ≠ "active" →
            (kwSet kwargs "active" (trueOf mv.ty)).lookup k2 = kwargs.lookup k2)
        ∧ (trueOf mv.ty).ty = mv.ty)
    ∧ (∀ last : TVal, kwargs.lookup "active" = none → args.getLast? = some last →
        isMaskType last.ty = true →
        extract_mask args kwargs = (some last, args.dropLast ++ [trueOf last.ty], kwargs)
        ∧ (args.dropLast ++ [trueOf last.ty]).length = args.length
        ∧ (∀ i : Nat, i + 1 < args.length →
            (args.dropLast ++ [trueOf last.ty])[i]? = args[i]?)
        ∧ (args.dropLast ++ [trueOf last.ty]).getLast? = some (trueOf last.ty)
        ∧ (trueOf last.ty).ty = last.ty)
    ∧ (kwargs.lookup "active" = none →
        (∀ last : TVal, args.getLast? = some last → isMaskType last.ty = false) →
        extract_mask args kwargs = (none, args, kwargs)) := by
  refine ⟨?_, ?_, ?_⟩
  · intro mv hmv
    refine ⟨?_, kwSet_lookup_self kwargs "active" (trueOf mv.ty),
      fun k2 hk2 => kwSet_lookup_other kwargs "active" k2 (trueOf mv.ty) hk2,
      trueOf_ty mv.ty⟩
    simp [extract_mask, hmv]
  · intro last hnone hlast hmask
    have hne : args ≠ [] := by
      intro he
      rw [he] at hlast
      simp at hlast
    have hlen1 : 1 ≤ args.length := by
      cases args with
      | nil => exact absurd rfl hne
      | cons a r => simp
    refine ⟨?_, ?_, ?_, ?_, trueOf_ty last.ty⟩
    · simp [extract_mask, hnone, hlast, hmask]
    · simp [List.length_dropLast]
      omega
    · intro i hi
      have hi2 : i < args.length - 1 := by omega
      rw [List.getElem?_append, List.getElem?_dropLast]
      simp [List.length_dropLast, hi2]
    · simp [List.getLast?_append]
  · intro hnone hmask
    cases hlast : args.getLast? with
    | none => simp [extract_mask, hnone, hlast]
    | some last =>
        have := hmask last hlast
        simp [extract_mask, hnone, hlast, this]

/-- Witness for C10 at a concrete call: one real argument plus a trailing
JIT boolean mask. -/
theorem claim_c10_witness :
    ([⟨argScalarDynI, .parr [.pint 4]⟩,
        (⟨.arr (mkMeta JitBk.bllvm VarTy.vbool [Extent.dyn] 1) capsConst .pyBool,
          .parr [.pbool false]⟩ : TVal)].getLast? =
      some (⟨.arr (mkMeta JitBk.bllvm VarTy.vbool [Extent.dyn] 1) capsConst .pyBool,
          .parr [.pbool false]⟩ : TVal))
    ∧ isMaskType (DType.arr (mkMeta JitBk.bllvm VarTy.vbool [Extent.dyn] 1) capsConst .pyBool)
        = true
    ∧ extract_mask
        [⟨argScalarDynI, .parr [.pint 4]⟩,
          ⟨.arr (mkMeta JitBk.bllvm VarTy.vbool [Extent.dyn] 1) capsConst .pyBool,
            .parr [.pbool false]⟩] []
        = (some ⟨.arr (mkMeta JitBk.bllvm VarTy.vbool [Extent.dyn] 1) capsConst .pyBool,
              .parr [.pbool false]⟩,
           [⟨argScalarDynI, .parr [.pint 4]⟩,
             trueOf (.arr (mkMeta JitBk.bllvm VarTy.vbool [Extent.dyn] 1) capsConst .pyBool)],
           []) := by
  exact ⟨rfl, rfl, by
    have h := (claim_c10_mask_never_forwarded
      [⟨argScalarDynI, .parr [.pint 4]⟩,
        ⟨.arr (mkMeta JitBk.bllvm VarTy.vbool [Extent.dyn] 1) capsConst .pyBool,
          .parr [.pbool false]⟩] []).2.1
      ⟨.arr (mkMeta JitBk.bllvm VarTy.vbool [Extent.dyn] 1) capsConst .pyBool,
        .parr [.pbool false]⟩ rfl rfl rfl
    simpa using h.1⟩

end DrJit

namespace DrJit

/-! ## Claim C3 -/

/-- C3 counterexample: two scalar-backend (non-JIT-backed) 1-D dynamically
sized arrays of different element kinds, with no cast primitive and no
bulk-import support.  Neither of the claim's exception conditions holds — the types are
not JIT-backed, and the source does not occur in the target's element-type
chain — yet sequence import is not attempted and the code proceeds to
broadcast: the refusal condition at init.cpp line 81 tests dimensionality
and dynamic sizing only and never consults the backend. -/
theorem claim_c3_counterexample :
    specCondBothDynJit tgtScalarDynF argScalarDynI = false
    ∧ valueChainHit tgtScalarDynF argScalarDynI = false
    ∧ (tgtScalarDynF == argScalarDynI) = false
    ∧ trySeqImport tgtScalarDynF argScalarDynI = false
    ∧ singleArgKind tgtScalarDynF argScalarDynI = InitPath.broadcast := by
  decide

/-- C3 amended: for a Dr.Jit-array argument of a different type, when
neither the cast condition nor the host-import condition applies, the
sequence importer runs iff neither (a') both types are 1-D dynamically sized
arrays — whether or not JIT-backed — nor (b) the source type occurs in the
target's transitive element-type chain; when (a') or (b) holds the code
falls through to scalar broadcast instead. -/
theorem claim_c3_seq_import_condition (m ma : ArrayMeta) (c ca : Caps)
    (v va : DType)
    (hneq : ((DType.arr m c v) == (DType.arr ma ca va)) = false)
    (hcast : ((({ ma with ty := m.ty } : ArrayMeta) == m) && c.hasCast) = false)
    (hhost : ((({ m with backend := JitBk.binvalid, isVector := true } : ArrayMeta) == ma)
              && c.hasInitData && ca.hasData) = false) :
    (singleArgKind (.arr m c v) (.arr ma ca va) = InitPath.seqImport ↔
      (bothDyn1D m ma || chainContains (.arr ma ca va) v) = false)
    ∧ (singleArgKind (.arr m c v) (.arr ma ca va) = InitPath.broadcast ↔
      (bothDyn1D m ma || chainContains (.arr ma ca va) v) = true) := by
  by_cases hb : bothDyn1D m ma = true
  · have hts : trySeqImport (.arr m c v) (.arr ma ca va) = false := by
      simp [trySeqImport, hb]
    simp [singleArgKind, hneq, hcast, hhost, hts, hb]
  · have hbf : bothDyn1D m ma = false := by
      cases h : bothDyn1D m ma
      · rfl
      · exact absurd h hb
    by_cases hcc : chainContains (.arr ma ca va) v = true
    · have hts : trySeqImport (.arr m c v) (.arr ma ca va) = false := by
        simp [trySeqImport, hbf, hcc]
      simp [singleArgKind, hneq, hcast, hhost, hts, hbf, hcc]
    · have hccf : chainContains (.arr ma ca va) v = false := by
        cases h : chainContains (.arr ma ca va) v
        · rfl
        · exact absurd h hcc
      have hts : trySeqImport (.arr m c v) (.arr ma ca va) = true := by
        simp [trySeqImport, hbf, hccf]
      simp [singleArgKind, hneq, hcast, hhost, hts, hbf, hccf]

/-- Witness for amended C3: a fixed-size-3 float target and a dynamic int
source attempt sequence import. -/
theorem claim_c3_witness :
    ((DType.arr (mkMeta JitBk.bnone VarTy.vfloat32 [Extent.fixed 3] 1) capsNone .pyFloat ==
        DType.arr (mkMeta JitBk.bnone VarTy.vint32 [Extent.dyn] 1) capsNone .pyInt) = false)
    ∧ (singleArgKind
        (.arr (mkMeta JitBk.bnone VarTy.vfloat32 [Extent.fixed 3] 1) capsNone .pyFloat)
        (.arr (mkMeta JitBk.bnone VarTy.vint32 [Extent.dyn] 1) capsNone .pyInt)
          = InitPath.seqImport ↔
      (bothDyn1D (mkMeta JitBk.bnone VarTy.vfloat32 [Extent.fixed 3] 1)
          (mkMeta JitBk.bnone VarTy.vint32 [Extent.dyn] 1)
        || chainContains (.arr (mkMeta JitBk.bnone VarTy.vint32 [Extent.dyn] 1) capsNone .pyInt)
            DType.pyFloat) = false) :=
  ⟨by decide,
    (claim_c3_seq_import_condition (mkMeta JitBk.bnone VarTy.vfloat32 [Extent.fixed 3] 1)
      (mkMeta JitBk.bnone VarTy.vint32 [Extent.dyn] 1) capsNone capsNone
      DType.pyFloat DType.pyInt (by decide) (by decide) (by decide)).1⟩

/-! ## Claim C7 -/

/-- Truncating division agrees with floor division — hence with the
mathematical ceiling encoded by `ceilCount` — whenever the floor-division
value is nonnegative and the divisor positive. -/
theorem tdiv_eq_fdiv_of_fdiv_nonneg (n b : Int) (hb : 0 < b)
    (h : 0 ≤ n.fdiv b) : n.tdiv b = n.fdiv b := by
  by_cases hn : 0 ≤ n
  · exact (Int.fdiv_eq_tdiv hn (le_of_lt hb)).symm
  · exfalso
    have : n.fdiv b < 0 := Int.fdiv_neg' (by omega) hb
    omega

/-- C7 counterexample: at `start = 0`, `stop = -4`, `step = 3` the
truncating count formula yields 0 while the ceiling is -1; consequently the
code returns an empty result where the claim's ceiling reading would
require a negative-count error. -/
theorem claim_c7_counterexample :
    arangeCount 0 (-4) 3 = 0
    ∧ ceilCount 0 (-4) 3 = -1
    ∧ arange (mkMeta JitBk.bcuda VarTy.vint32 [Extent.dyn] 1) true 0 (-4) 3 = .ok [] := by
  refine ⟨by decide, by decide, ?_⟩
  rfl

/-- For a valid arithmetic 1-D dynamic dtype, `arange` reduces to the
count/lane computation. -/
theorem arange_valid (ty : VarTy) (start stop step : Int)
    (hty1 : ty ≠ VarTy.vbool) (hty2 : ty ≠ VarTy.vpointer) :
    arange (mkMeta JitBk.bcuda ty [Extent.dyn] 1) true start stop step =
      (if arangeCount start stop step == 0 then .ok []
       else if arangeCount start stop step < 0 then
         .error "drjit.arange(): size cannot be negative."
       else if start == 0 && step == 1 then
         .ok ((List.range (arangeCount start stop step).toNat).map Int.ofNat)
       else
         .ok (((List.range (arangeCount start stop step).toNat).map Int.ofNat).map
           (fun i => i * step + start))) := by
  simp only [arange, mkMeta, shape0]
  norm_num [hty1, hty2]

/-- C7 amended: the count is the truncating-division formula, which equals
`ceil((stop - start) / step)` whenever that ceiling is nonnegative; a count
of 0 returns an empty value, a negative count is an error, a positive count
produces lanes `start + i * step`; and the two concrete examples of the
claim hold. -/
theorem claim_c7_arange_count_and_lanes (ty : VarTy) (start stop step : Int)
    (hty1 : ty ≠ VarTy.vbool) (hty2 : ty ≠ VarTy.vpointer) (hstep : step ≠ 0) :
    (0 ≤ ceilCount start stop step →
        arangeCount start stop step = ceilCount start stop step)
    ∧ (arangeCount start stop step = 0 →
        arange (mkMeta JitBk.bcuda ty [Extent.dyn] 1) true start stop step = .ok [])
    ∧ (arangeCount start stop step < 0 →
        arange (mkMeta JitBk.bcuda ty [Extent.dyn] 1) true start stop step =
          .error "drjit.arange(): size cannot be negative.")
    ∧ (0 < arangeCount start stop step →
        arange (mkMeta JitBk.bcuda ty [Extent.dyn] 1) true start stop step =
          .ok (((List.range (arangeCount start stop step).toNat).map Int.ofNat).map
            (fun i => i * step + start)))
    ∧ arange (mkMeta JitBk.bcuda VarTy.vint32 [Extent.dyn] 1) true 0 10 1 =
        .ok ((List.range 10).map Int.ofNat)
    ∧ arange (mkMeta JitBk.bcuda VarTy.vint32 [Extent.dyn] 1) true 10 0 (-2) =
        .ok [10, 8, 6, 4, 2] := by
  refine ⟨?_, ?_, ?_, ?_, by rfl, by rfl⟩
  · intro hceil
    rcases lt_trichotomy step 0 with hlt | heq | hgt
    · have hs : ¬ (0 < step) := by omega
      unfold arangeCount ceilCount
      rw [if_neg hs, if_neg hs]
      have hrw : stop - start + step - (-1) = -(start - stop + -step - 1) := by ring
      rw [hrw]
      have h2 := Int.neg_tdiv_neg (start - stop + -step - 1) (-step)
      rw [neg_neg] at h2
      rw [h2]
      apply tdiv_eq_fdiv_of_fdiv_nonneg _ _ (by omega)
      unfold ceilCount at hceil
      rw [if_neg hs] at hceil
      exact hceil
    · exact absurd heq hstep
    · unfold arangeCount ceilCount
      rw [if_pos hgt, if_pos hgt]
      apply tdiv_eq_fdiv_of_fdiv_nonneg _ _ hgt
      unfold ceilCount at hceil
      rw [if_pos hgt] at hceil
      exact hceil
  · intro hzero
    rw [arange_valid ty start stop step hty1 hty2]
    simp [hzero]
  · intro hneg
    rw [arange_valid ty start stop step hty1 hty2]
    have h0 : (arangeCount start stop step == 0) = false := by
      simp only [beq_eq_false_iff_ne, ne_eq]
      omega
    rw [h0, if_neg (by simp), if_pos hneg]
  · intro hpos
    rw [arange_valid ty start stop step hty1 hty2]
    have h0 : (arangeCount start stop step == 0) = false := by
      simp only [beq_eq_false_iff_ne, ne_eq]
      omega
    have hnneg : ¬ (arangeCount start stop step < 0) := by omega
    rw [h0, if_neg (by simp), if_neg hnneg]
    by_cases hss : start = 0 ∧ step = 1
    · rcases hss with ⟨h1, h2⟩
      subst h1
      subst h2
      rw [if_pos (by simp)]
      simp only [mul_one, add_zero, List.map_id']
    · have hss' : (start == 0 && step == 1) = false := by
        rcases not_and_or.mp hss with h | h
        · have hf : (start == 0) = false := by
            simp only [beq_eq_false_iff_ne, ne_eq]
            exact h
          simp [hf]
        · have hf : (step == 1) = false := by
            simp only [beq_eq_false_iff_ne, ne_eq]
            exact h
          simp [hf]
      rw [hss', if_neg (by simp)]

/-- Witness for amended C7 at the second example's inputs. -/
theorem claim_c7_witness :
    (VarTy.vint32 ≠ VarTy.vbool)
    ∧ ((-2 : Int) ≠ 0)
    ∧ (0 : Int) ≤ ceilCount 10 0 (-2)
    ∧ arangeCount 10 0 (-2) = ceilCount 10 0 (-2)
    ∧ arange (mkMeta JitBk.bcuda VarTy.vint32 [Extent.dyn] 1) true 10 0 (-2) =
        .ok [10, 8, 6, 4, 2] := by
  have h := claim_c7_arange_count_and_lanes VarTy.vint32 10 0 (-2)
    (by decide) (by decide) (by decide)
  exact ⟨by decide, by decide, by decide, h.1 (by decide), h.2.2.2.2.2⟩

end DrJit

namespace DrJit

/-! ## Claim C8 -/

/-- Bind on a success value reduces to the continuation. -/
theorem except_bind_ok {α β : Type} (a : α) (f : α → Except String β) :
    (Except.ok a >>= f) = f a := rfl

/-- Bind on an error propagates the error. -/
theorem except_bind_error {α β : Type} (e : String) (f : α → Except String β) :
    ((Except.error e : Except String α) >>= f) = Except.error e := rfl

/-- Every element produced by a successful `exMapM` comes from a successful
application of the function to some list element. -/
theorem exMapM_ok_mem {α β : Type} (f : α → Except String β) :
    ∀ (l : List α) (ys : List β), exMapM f l = .ok ys →
      ∀ y ∈ ys, ∃ x ∈ l, f x = .ok y := by
  intro l
  induction l with
  | nil =>
      intro ys h y hy
      simp only [exMapM] at h
      cases h
      simp at hy
  | cons x r ih =>
      intro ys h y hy
      simp only [exMapM] at h
      cases hfx : f x with
      | error e =>
          rw [hfx] at h
          rw [except_bind_error] at h
          exact Except.noConfusion h
      | ok b =>
          rw [hfx] at h
          rw [except_bind_ok] at h
          cases hr : exMapM f r with
          | error e =>
              rw [hr] at h
              rw [except_bind_error] at h
              exact Except.noConfusion h
          | ok bs =>
              rw [hr] at h
              rw [except_bind_ok, Except.ok.injEq] at h
              subst h
              rcases List.mem_cons.mp hy with rfl | hy'
              · exact ⟨x, List.mem_cons_self x r, hfx⟩
              · rcases ih bs hr y hy' with ⟨x', hx', hfx'⟩
                exact ⟨x', List.mem_cons_of_mem x hx', hfx'⟩

/-- When the value's kind matches the leaf `VarType`, the Bool/int fix-up
is the identity. -/
theorem boolFix_of_varMatches (vt : VarTy) (v : PVal) (h : varMatches vt v = true) :
    boolFix vt v = v := by
  cases vt <;> cases v <;> simp_all [varMatches, boolFix]

/-- A record's kind match distributes over its fields. -/
theorem kindsMatch_fields (fields : List (String × DType)) (v : PVal)
    (h : kindsMatch.go fields v = true) : ∀ p ∈ fields, kindsMatch p.2 v = true := by
  induction fields with
  | nil => simp
  | cons q r ih =>
      intro p hp
      simp only [kindsMatch.go, Bool.and_eq_true] at h
      rcases List.mem_cons.mp hp with rfl | hp'
      · exact h.1
      · exact ih h.2 p hp'

/-- Core of C8: whenever `full` succeeds with a value whose scalar kind
matches every leaf of the dtype, every reachable slot of the result equals
that value — covering the constant-broadcast leaf path, the per-slot
assignment path, and the per-field record recursion. -/
theorem full_isFullOf :
    ∀ (fuel : Nat) (d : DType) (v : PVal) (shape : List Nat) (r : PVal),
      kindsMatch d v = true → fullF fuel d (some v) shape = .ok r → IsFullOf v r := by
  intro fuel
  induction fuel with
  | zero =>
      intro d v shape r _ h
      exact Except.noConfusion h
  | succ n ih =>
      intro d v shape r hk hr
      cases d with
      | arr m c vt =>
          have hk2 : (varMatches m.ty v && kindsMatch vt v) = true := hk
          rw [Bool.and_eq_true] at hk2
          obtain ⟨hvm, hkv⟩ := hk2
          cases shape with
          | nil =>
              simp only [fullF] at hr
              split at hr
              · exact Except.noConfusion hr
              · exact Except.noConfusion hr
          | cons n0 rest =>
              simp only [fullF] at hr
              split at hr
              · exact Except.noConfusion hr
              · split at hr
                · rw [Except.ok.injEq] at hr
                  subst hr
                  apply IsFullOf.arr
                  intro x hx
                  rw [List.eq_of_mem_replicate hx,
                    show (some v).getD PVal.pnone = v from rfl,
                    boolFix_of_varMatches m.ty v hvm]
                  exact IsFullOf.scalar
                · split at hr
                  · rename_i hcond
                    rw [Bool.and_eq_true] at hcond
                    exact absurd hcond.1 (by simp)
                  · cases hrec : fullF n vt (some v) rest with
                    | error e =>
                        rw [hrec] at hr
                        exact Except.noConfusion hr
                    | ok o =>
                        rw [hrec] at hr
                        rw [except_bind_ok, Except.ok.injEq] at hr
                        subst hr
                        apply IsFullOf.arr
                        intro x hx
                        rw [List.eq_of_mem_replicate hx]
                        exact ih vt v rest o hkv hrec
      | pyInt =>
          cases v with
          | pint k =>
              have hr2 : Except.ok (PVal.pint k) = Except.ok r := hr
              rw [Except.ok.injEq] at hr2
              rw [← hr2]
              exact IsFullOf.scalar
          | pfloat q => exact Bool.noConfusion hk
          | pbool b => exact Bool.noConfusion hk
          | parr l => exact Bool.noConfusion hk
          | pobj l => exact Bool.noConfusion hk
          | pnone => exact Bool.noConfusion hk
      | pyFloat =>
          cases v with
          | pfloat q =>
              have hr2 : Except.ok (PVal.pfloat q) = Except.ok r := hr
              rw [Except.ok.injEq] at hr2
              rw [← hr2]
              exact IsFullOf.scalar
          | pint k => exact Bool.noConfusion hk
          | pbool b => exact Bool.noConfusion hk
          | parr l => exact Bool.noConfusion hk
          | pobj l => exact Bool.noConfusion hk
          | pnone => exact Bool.noConfusion hk
      | pyBool =>
          cases v with
          | pbool b =>
              have hr2 : Except.ok (PVal.pbool b) = Except.ok r := hr
              rw [Except.ok.injEq] at hr2
              rw [← hr2]
              exact IsFullOf.scalar
          | pint k => exact Bool.noConfusion hk
          | pfloat q => exact Bool.noConfusion hk
          | parr l => exact Bool.noConfusion hk
          | pobj l => exact Bool.noConfusion hk
          | pnone => exact Bool.noConfusion hk
      | dstruct fields =>
          have hgo : kindsMatch.go fields v = true := hk
          simp only [fullF] at hr
          cases hex : exMapM (fun p =>
              match (if isDrjitType p.2 && shape.length == 1 then
                       fullF n p.2 (some v) (deriveShape p.2 (shape.headD 1))
                     else
                       fullF n p.2 (some v) shape) with
              | .ok entry => .ok (p.1, entry)
              | .error e => .error e) fields with
          | error e =>
              rw [hex] at hr
              exact Except.noConfusion hr
          | ok fvals =>
              rw [hex] at hr
              have hr2 : Except.ok (PVal.pobj fvals) = Except.ok r := hr
              rw [Except.ok.injEq] at hr2
              rw [← hr2]
              apply IsFullOf.obj
              intro x hx
              rcases exMapM_ok_mem _ fields fvals hex x hx with ⟨p, hp, hpx⟩
              have hkp : kindsMatch p.2 v = true := kindsMatch_fields fields v hgo p hp
              split at hpx
              · rename_i entry heq
                rw [Except.ok.injEq] at hpx
                rw [← hpx]
                split at heq
                · exact ih p.2 v (deriveShape p.2 (shape.headD 1)) entry hkp heq
                · exact ih p.2 v shape entry hkp heq
              · exact Except.noConfusion hpx
      | other =>
          exact Except.noConfusion hr

/-- C8: whenever `full(T, v, shape)` succeeds and `v`'s scalar kind matches
every leaf of `T`, every lane reads back as `v` — through the single
constant-broadcast leaf call, through per-element assignment, and
recursively per field of a record type; in particular, on a 1-D dynamically
sized integer leaf, `full` yields exactly `n` slots all equal to `v`, both
with and without constant-broadcast support. -/
theorem claim_c8_full_lane_readback :
    (∀ (fuel : Nat) (d : DType) (v : PVal) (shape : List Nat) (r : PVal),
        kindsMatch d v = true → fullF fuel d (some v) shape = .ok r → IsFullOf v r)
    ∧ (∀ (fuel n : Nat) (k : Int),
        fullF (fuel + 2) (.arr (mkMeta JitBk.bcuda VarTy.vint32 [Extent.dyn] 1) capsConst .pyInt)
          (some (.pint k)) [n] = .ok (.parr (List.replicate n (.pint k))))
    ∧ (∀ (fuel n : Nat) (k : Int),
        fullF (fuel + 2) (.arr (mkMeta JitBk.bcuda VarTy.vint32 [Extent.dyn] 1) capsNone .pyInt)
          (some (.pint k)) [n] = .ok (.parr (List.replicate n (.pint k)))) :=
  ⟨full_isFullOf, fun _ _ _ => rfl, fun _ _ _ => rfl⟩

/-- Witness for C8: a record type with an array field and a plain int
field, filled with 7 over extent 2. -/
theorem claim_c8_witness :
    kindsMatch (.dstruct [("a", .arr (mkMeta JitBk.bcuda VarTy.vint32 [Extent.dyn] 1)
        capsConst .pyInt), ("b", .pyInt)]) (.pint 7) = true
    ∧ fullF 3 (.dstruct [("a", .arr (mkMeta JitBk.bcuda VarTy.vint32 [Extent.dyn] 1)
        capsConst .pyInt), ("b", .pyInt)]) (some (.pint 7)) [2]
        = .ok (.pobj [("a", .parr [.pint 7, .pint 7]), ("b", .pint 7)])
    ∧ IsFullOf (.pint 7) (.pobj [("a", .parr [.pint 7, .pint 7]), ("b", .pint 7)]) :=
  ⟨rfl, rfl,
    claim_c8_full_lane_readback.1 3
      (.dstruct [("a", .arr (mkMeta JitBk.bcuda VarTy.vint32 [Extent.dyn] 1)
        capsConst .pyInt), ("b", .pyInt)]) (.pint 7) [2]
      (.pobj [("a", .parr [.pint 7, .pint 7]), ("b", .pint 7)]) rfl rfl⟩

end DrJit
